import Mathlib

/-!
Overlay address authentication (package `bzz`) and version negotiation.

A shallow embedding of `pkg/bzz/address.go` together with the collaborators it
calls.  Byte slices and Go strings are lists of bytes (values, no aliasing);
`uint64` is a natural number reduced modulo `2 ^ 64` where it is turned into
bytes; a Go `(value, error)` result is an `Except GoError value`.

The functions of `address.go` call code that is not part of that file:
`crypto.Recover`, `crypto.NewOverlayAddress`, the `crypto.Signer` interface,
the multiaddr library and `encoding/json`.  They are parameters of the
embedding (`Collaborators`, `Signer`); what a theorem needs from them is a
hypothesis of that theorem.
-/

namespace Bee

/-! ## Bytes, strings and errors -/

/-- A Go `byte`. -/
abbrev Byte := Fin 256

/-- A Go `[]byte`, as the sequence of its elements. -/
abbrev Bytes := List Byte

/-- A Go `string`: an immutable sequence of bytes. -/
abbrev GoString := List Byte

/-- The conversion `byte(n)` of an unsigned integer: the low eight bits. -/
def byteOfNat (n : Nat) : Byte := ⟨n % 256, Nat.mod_lt n (by decide)⟩

/-- The bytes of a string literal (its UTF-8 encoding, as Go stores it). -/
def str (s : String) : GoString :=
  (s.toList.flatMap String.utf8EncodeChar).map fun u => u.val

/-- Go `error` values.  `ErrInvalidAddress` is the sentinel declared by package
`bzz`; every error made by another package is an `other` value. -/
inductive GoError where
  | ErrInvalidAddress : GoError
  | other (text : String) : GoError
  deriving DecidableEq, Repr

deriving instance DecidableEq for Except

/-- `bytes.Equal`: same length and same bytes. -/
def bytesEqual (a b : Bytes) : Bool := decide (a = b)

/-- `binary.BigEndian.PutUint64` on a fresh 8-byte slice: byte `i` is
`byte(v >> (56 - 8*i))`. -/
def PutUint64 (v : Nat) : Bytes :=
  let w := v % 2 ^ 64
  [byteOfNat (w / 2 ^ 56), byteOfNat (w / 2 ^ 48), byteOfNat (w / 2 ^ 40),
   byteOfNat (w / 2 ^ 32), byteOfNat (w / 2 ^ 24), byteOfNat (w / 2 ^ 16),
   byteOfNat (w / 2 ^ 8), byteOfNat w]

/-- `binary.BigEndian.Uint64`: the value of the first eight bytes, most
significant first; `none` when there are fewer than eight (Go panics). -/
def Uint64 : Bytes → Option Nat
  | b0 :: b1 :: b2 :: b3 :: b4 :: b5 :: b6 :: b7 :: _ =>
    some (b0.val * 2 ^ 56 + b1.val * 2 ^ 48 + b2.val * 2 ^ 40 + b3.val * 2 ^ 32 +
      b4.val * 2 ^ 24 + b5.val * 2 ^ 16 + b6.val * 2 ^ 8 + b7.val)
  | _ => none

/-! ## `encoding/hex` -/

/-- The entry of `hextable = "0123456789abcdef"` at index `n < 16`. -/
def hexDigit (n : Nat) : Byte :=
  if n < 10 then byteOfNat (48 + n) else byteOfNat (87 + n)

/-- `hex.fromHexChar`: the value of a hexadecimal digit, either case. -/
def fromHexChar (c : Byte) : Option Nat :=
  if 48 ≤ c.val ∧ c.val ≤ 57 then some (c.val - 48)
  else if 97 ≤ c.val ∧ c.val ≤ 102 then some (c.val - 97 + 10)
  else if 65 ≤ c.val ∧ c.val ≤ 70 then some (c.val - 65 + 10)
  else none

/-- `hex.EncodeToString`: two lower-case digits per byte, high nibble first. -/
def hexEncodeToString : Bytes → GoString
  | [] => []
  | b :: bs => hexDigit (b.val / 16) :: hexDigit (b.val % 16) :: hexEncodeToString bs

/-- `hex.DecodeString`: pairs of digits from the left; the first bad digit is
an `InvalidByteError`, a dangling last digit is `ErrLength`. -/
def hexDecodeString : GoString → Except GoError Bytes
  | [] => .ok []
  | [c] =>
    match fromHexChar c with
    | none => .error (.other "encoding/hex: invalid byte")
    | some _ => .error (.other "encoding/hex: odd length hex string")
  | c :: d :: rest =>
    match fromHexChar c with
    | none => .error (.other "encoding/hex: invalid byte")
    | some a =>
      match fromHexChar d with
      | none => .error (.other "encoding/hex: invalid byte")
      | some b =>
        match hexDecodeString rest with
        | .error e => .error e
        | .ok bs => .ok (byteOfNat (a * 16 + b) :: bs)

/-! ## `encoding/base64`, `StdEncoding` -/

/-- The entry of the standard alphabet `A-Z a-z 0-9 + /` at index `i < 64`. -/
def encodeStd (i : Nat) : Byte :=
  if i < 26 then byteOfNat (65 + i)
  else if i < 52 then byteOfNat (97 + (i - 26))
  else if i < 62 then byteOfNat (48 + (i - 52))
  else if i = 62 then 43
  else 47

/-- The decode map of the standard alphabet: the index of a character, `none`
(the map's `0xff`) for a byte outside the alphabet. -/
def decodeStd (c : Byte) : Option Nat :=
  if 65 ≤ c.val ∧ c.val ≤ 90 then some (c.val - 65)
  else if 97 ≤ c.val ∧ c.val ≤ 122 then some (c.val - 97 + 26)
  else if 48 ≤ c.val ∧ c.val ≤ 57 then some (c.val - 48 + 52)
  else if c.val = 43 then some 62
  else if c.val = 47 then some 63
  else none

/-- `base64.StdEncoding.EncodeToString`: three bytes give four characters of
the 24-bit value `a<<16 | b<<8 | c`; a remainder of one or two bytes is padded
with `=` (byte 61). -/
def base64EncodeToString : Bytes → GoString
  | [] => []
  | [a] =>
    let val := a.val * 65536
    [encodeStd (val / 262144 % 64), encodeStd (val / 4096 % 64), 61, 61]
  | [a, b] =>
    let val := a.val * 65536 + b.val * 256
    [encodeStd (val / 262144 % 64), encodeStd (val / 4096 % 64), encodeStd (val / 64 % 64), 61]
  | a :: b :: c :: rest =>
    let val := a.val * 65536 + b.val * 256 + c.val
    encodeStd (val / 262144 % 64) :: encodeStd (val / 4096 % 64) ::
      encodeStd (val / 64 % 64) :: encodeStd (val % 64) :: base64EncodeToString rest

/-- `CorruptInputError` (the offset it carries is not modelled). -/
def CorruptInputError : GoError := .other "illegal base64 data"

/-- Drop leading `\n` and `\r`. -/
def skipNewlines : GoString → GoString
  | [] => []
  | c :: cs => if c.val = 10 ∨ c.val = 13 then skipNewlines cs else c :: cs

/-- The end of `decodeQuantum`: the 6-bit values `d0 d1 d2 d3` make the 24-bit
value `d0<<18 | d1<<12 | d2<<6 | d3`, of which the first `dlen - 1` bytes are
written (no strict check of the unused bits). -/
def quantumBytes (d0 d1 d2 d3 dlen : Nat) : Bytes :=
  let val := d0 * 262144 + d1 * 4096 + d2 * 64 + d3
  [byteOfNat (val / 65536), byteOfNat (val / 256), byteOfNat val].take (dlen - 1)

/-- The loop of `Encoding.Decode` over `decodeQuantum`, on the input that is
left, with the 6-bit values `dbuf` already read for the current quantum (at
most three).  The result is the bytes written from here on and the error.
Newlines are skipped; a byte outside the alphabet that is not padding is
corrupt; padding is only accepted after two or three values, must be complete
and must end the input, and the bytes of a padded quantum are written even
when garbage follows it. -/
def decodeFrom : List Nat → GoString → Bytes × Option GoError
  | [], [] => ([], none)
  | _ :: _, [] => ([], some CorruptInputError)
  | dbuf, c :: cs =>
    match decodeStd c with
    | some v =>
      match dbuf with
      | [d0, d1, d2] =>
        (quantumBytes d0 d1 d2 v 4 ++ (decodeFrom [] cs).1, (decodeFrom [] cs).2)
      | _ => decodeFrom (dbuf ++ [v]) cs
    | none =>
      if c.val = 10 ∨ c.val = 13 then decodeFrom dbuf cs
      else if c.val ≠ 61 then ([], some CorruptInputError)
      else
        match dbuf with
        | [d0, d1] =>
          match skipNewlines cs with
          | [] => ([], some CorruptInputError)
          | e :: es =>
            if e.val ≠ 61 then ([], some CorruptInputError)
            else
              (quantumBytes d0 d1 0 0 2,
                if skipNewlines es = [] then none else some CorruptInputError)
        | [d0, d1, d2] =>
          (quantumBytes d0 d1 d2 0 3,
            if skipNewlines cs = [] then none else some CorruptInputError)
        | _ => ([], some CorruptInputError)

/-- `base64.StdEncoding.DecodeString`: the decoded bytes (those written before
an error, when there is one) and the error. -/
def base64DecodeString (s : GoString) : Bytes × Option GoError :=
  decodeFrom [] s

/-! ## `swarm.Address` -/

namespace swarm

/-- Modelled from the spec: `swarm.Address` (package `pkg/swarm`, not part of
the source at hand), the overlay identity: a byte string, compared
byte-for-byte, whose textual form is hex. -/
structure Address where
  b : Bytes
  deriving DecidableEq, Repr

/-- Modelled from the spec: `swarm.NewAddress`, the address holding the given bytes. -/
def NewAddress (b : Bytes) : Address := ⟨b⟩

/-- Modelled from the spec: `Address.Bytes`. -/
def Address.Bytes (a : Address) : Bee.Bytes := a.b

/-- Modelled from the spec: `Address.Equal`, byte-for-byte equality. -/
def Address.Equal (a b : Address) : Bool := bytesEqual a.b b.b

/-- Modelled from the spec: `Address.String`, the hex text of the bytes. -/
def Address.String (a : Address) : GoString := hexEncodeToString a.b

/-- Modelled from the spec: `swarm.ParseHexAddress`, the address written as hex text. -/
def ParseHexAddress (s : GoString) : Except GoError Address :=
  match hexDecodeString s with
  | .error e => .error e
  | .ok b => .ok (NewAddress b)

end swarm

/-! ## Collaborators of `address.go` -/

/-- The anonymous struct that `MarshalJSON` and `UnmarshalJSON` hand to
`encoding/json`: three string fields. -/
structure WireRecord where
  Overlay : GoString
  Underlay : GoString
  Signature : GoString
  deriving DecidableEq, Repr

/-- The functions `address.go` calls in other packages, for a type `PK` of
public keys and a type `MA` of (non-nil) multiaddrs. -/
structure Collaborators (PK MA : Type) where
  /-- `crypto.Recover(signature, data)`. -/
  Recover : Bytes → Bytes → Except GoError PK
  /-- `crypto.NewOverlayAddress(publicKey, networkID)`. -/
  NewOverlayAddress : PK → Nat → swarm.Address
  /-- `Multiaddr.Bytes`. -/
  maBytes : MA → Bytes
  /-- `Multiaddr.Equal`. -/
  maEqual : MA → MA → Bool
  /-- `Multiaddr.String`. -/
  maString : MA → GoString
  /-- `ma.NewMultiaddrBytes`. -/
  NewMultiaddrBytes : Bytes → Except GoError MA
  /-- `ma.NewMultiaddr`, from the textual form. -/
  NewMultiaddr : GoString → Except GoError MA
  /-- `json.Marshal` of a pointer to the three-string struct. -/
  jsonMarshal : WireRecord → Except GoError Bytes
  /-- `json.Unmarshal` into the zero three-string struct. -/
  jsonUnmarshal : Bytes → Except GoError WireRecord

/-- The interface `crypto.Signer`: `Sign(data)` and `PublicKey()`. -/
structure Signer (PK : Type) where
  Sign : Bytes → Except GoError Bytes
  PublicKey : Except GoError PK

/-! ## `pkg/bzz/address.go` -/

namespace bzz

/-- `var ErrInvalidAddress = errors.New("invalid address")`. -/
def ErrInvalidAddress : GoError := GoError.ErrInvalidAddress

/-- `type Address struct`, for addresses whose `Underlay` interface is not nil. -/
structure Address (MA : Type) where
  Underlay : MA
  Overlay : swarm.Address
  Signature : Bytes
  deriving DecidableEq, Repr

/-- `func NewAddress(signer, underlay, overlay, networkID) (*Address, error)`. -/
def NewAddress {PK MA : Type} (E : Collaborators PK MA) (signer : Signer PK)
    (underlay : MA) (overlay : swarm.Address) (networkID : Nat) :
    Except GoError (Address MA) :=
  let networkIDBytes := PutUint64 networkID
  match signer.Sign (E.maBytes underlay ++ networkIDBytes) with
  | .error err => .error err
  | .ok signature =>
    .ok { Underlay := underlay, Overlay := overlay, Signature := signature }

/-- `func Parse(underlay, overlay, signature []byte, networkID uint64) (*Address, error)`. -/
def Parse {PK MA : Type} (E : Collaborators PK MA)
    (underlay overlay signature : Bytes) (networkID : Nat) :
    Except GoError (Address MA) :=
  let networkIDBytes := PutUint64 networkID
  match E.Recover signature (underlay ++ networkIDBytes) with
  | .error _ => .error ErrInvalidAddress
  | .ok recoveredPK =>
    let recoveredOverlay := E.NewOverlayAddress recoveredPK networkID
    if !bytesEqual recoveredOverlay.Bytes overlay then
      .error ErrInvalidAddress
    else
      match E.NewMultiaddrBytes underlay with
      | .error _ => .error ErrInvalidAddress
      | .ok multiUnderlay =>
        .ok { Underlay := multiUnderlay, Overlay := swarm.NewAddress overlay,
              Signature := signature }

/-- `func (a *Address) Equal(b *Address) bool`. -/
def Address.Equal {PK MA : Type} (E : Collaborators PK MA) (a b : Address MA) : Bool :=
  a.Overlay.Equal b.Overlay && E.maEqual a.Underlay b.Underlay &&
    bytesEqual a.Signature b.Signature

/-- The struct value `v` built by `MarshalJSON`. -/
def wireRecord {PK MA : Type} (E : Collaborators PK MA) (p : Address MA) : WireRecord where
  Overlay := p.Overlay.String
  Underlay := E.maString p.Underlay
  Signature := base64EncodeToString p.Signature

/-- `func (p *Address) MarshalJSON() ([]byte, error)`. -/
def Address.MarshalJSON {PK MA : Type} (E : Collaborators PK MA) (p : Address MA) :
    Except GoError Bytes :=
  let v := wireRecord E p
  E.jsonMarshal v

/-- The `Address` behind the receiver of `UnmarshalJSON`, whose `Underlay`
interface may be nil (`none`), as in the zero value. -/
abbrev Receiver (MA : Type) := Address (Option MA)

/-- `func (p *Address) UnmarshalJSON(b []byte) error`: the receiver after the
call and the returned error (`none` for `nil`). -/
def UnmarshalJSON {PK MA : Type} (E : Collaborators PK MA) (p : Receiver MA) (b : Bytes) :
    Receiver MA × Option GoError :=
  match E.jsonUnmarshal b with
  | .error err => (p, some err)
  | .ok v =>
    match swarm.ParseHexAddress v.Overlay with
    | .error err => (p, some err)
    | .ok a =>
      let p1 : Receiver MA := { p with Overlay := a }
      match E.NewMultiaddr v.Underlay with
      | .error err => (p1, some err)
      | .ok m =>
        let p2 : Receiver MA := { p1 with Underlay := some m }
        let decoded := base64DecodeString v.Signature
        let p3 : Receiver MA := { p2 with Signature := decoded.1 }
        match decoded.2 with
        | some err => (p3, some err)
        | none => (p3, none)

end bzz

/-! ## A small instance of the collaborators

Deterministic stand-ins for the crypto module, the multiaddr library and the
JSON codec, on which the functions above can be evaluated.  Keys are single
bytes and a signature is `[key, digest(message), header]`; as in compact
recoverable signatures, the header byte carries a flag (value 4) that plays no
part in key recovery. -/

namespace Fake

/-- An 8-bit message digest: the sum of the squares of the bytes. -/
def digest (m : Bytes) : Byte :=
  byteOfNat (m.foldl (fun acc b => acc + b.val * b.val) 0)

/-- Signing with key `k`: the key, the digest of the message, header 27. -/
def Sign (k : Byte) (m : Bytes) : Except GoError Bytes :=
  .ok [k, digest m, 27]

/-- Key recovery: the signature has three bytes, its digest is the message's,
and its header is 27 with or without the flag 4. -/
def Recover (sig m : Bytes) : Except GoError Byte :=
  match sig with
  | [k, d, v] =>
    if d = digest m ∧ (v.val = 27 ∨ v.val = 31) then .ok k
    else .error (.other "recovery failed")
  | _ => .error (.other "invalid signature length")

/-- Overlay derivation: the key followed by the network identifier. -/
def NewOverlayAddress (pk : Byte) (networkID : Nat) : swarm.Address :=
  ⟨pk :: PutUint64 networkID⟩

/-- A multiaddr is a non-empty byte string. -/
def NewMultiaddrBytes (b : Bytes) : Except GoError Bytes :=
  if b = [] then .error (.other "empty multiaddr") else .ok b

/-- The text of a multiaddr: a slash and the hex of its bytes. -/
def maString (m : Bytes) : GoString := 47 :: hexEncodeToString m

/-- Reading the text of a multiaddr. -/
def NewMultiaddr (s : GoString) : Except GoError Bytes :=
  match s with
  | [] => .error (.other "empty multiaddr")
  | c :: rest =>
    if c.val = 47 then
      match hexDecodeString rest with
      | .error e => .error e
      | .ok b => NewMultiaddrBytes b
    else .error (.other "must begin with /")

/-- Remove a prefix, if present. -/
def stripPrefix : Bytes → Bytes → Option Bytes
  | [], s => some s
  | _ :: _, [] => none
  | p :: ps, c :: cs => if p = c then stripPrefix ps cs else none

/-- Split at the first double quote (byte 34), which is dropped. -/
def untilQuote : Bytes → Option (Bytes × Bytes)
  | [] => none
  | c :: cs =>
    if c.val = 34 then some ([], cs)
    else match untilQuote cs with
      | none => none
      | some (w, rest) => some (c :: w, rest)

/-- The JSON object that `encoding/json` writes for a struct without field
tags: the keys are the field names `Overlay`, `Underlay`, `Signature`, in
declaration order; the values are written without escapes. -/
def jsonMarshal (v : WireRecord) : Except GoError Bytes :=
  .ok (str "\x7b\x22Overlay\x22:\x22" ++ v.Overlay ++ str "\x22,\x22Underlay\x22:\x22" ++
    v.Underlay ++ str "\x22,\x22Signature\x22:\x22" ++ v.Signature ++ str "\x22\x7d")

/-- Reading back the object written by `jsonMarshal`. -/
def jsonUnmarshal (b : Bytes) : Except GoError WireRecord :=
  let bad : Except GoError WireRecord := .error (.other "json: syntax error")
  match stripPrefix (str "\x7b\x22Overlay\x22:\x22") b with
  | none => bad
  | some b1 =>
    match untilQuote b1 with
    | none => bad
    | some (o, b2) =>
      match stripPrefix (str ",\x22Underlay\x22:\x22") b2 with
      | none => bad
      | some b3 =>
        match untilQuote b3 with
        | none => bad
        | some (u, b4) =>
          match stripPrefix (str ",\x22Signature\x22:\x22") b4 with
          | none => bad
          | some b5 =>
            match untilQuote b5 with
            | none => bad
            | some (sg, b6) =>
              if b6 = str "\x7d" then .ok { Overlay := o, Underlay := u, Signature := sg }
              else bad

/-- The instance: public keys are bytes, multiaddrs are byte strings. -/
def collaborators : Collaborators Byte Bytes where
  Recover := Recover
  NewOverlayAddress := NewOverlayAddress
  maBytes := fun m => m
  maEqual := fun a b => bytesEqual a b
  maString := maString
  NewMultiaddrBytes := NewMultiaddrBytes
  NewMultiaddr := NewMultiaddr
  jsonMarshal := jsonMarshal
  jsonUnmarshal := jsonUnmarshal

/-- The signer holding key `k`. -/
def signer (k : Byte) : Signer Byte where
  Sign := Sign k
  PublicKey := .ok k

end Fake

/-! ## Signers with state, and two calls of `NewAddress` -/

/-- A `crypto.Signer` whose `Sign` may depend on state of its own (a nonce
source, a counter): the state before a call gives the result of the call and
the state after it.  The interface does not promise that two calls on the same
data return the same signature. -/
structure StatefulSigner (PK σ : Type) where
  Sign : σ → Bytes → Except GoError Bytes × σ
  PublicKey : Except GoError PK

/-- The signer as a single call sees it when its state is `st`. -/
def StatefulSigner.inState {PK σ : Type} (S : StatefulSigner PK σ) (st : σ) : Signer PK where
  Sign := fun data => (S.Sign st data).1
  PublicKey := S.PublicKey

/-- Two calls `NewAddress(signer, underlay, overlay, networkID)`, one after the
other, with the same arguments, on a signer whose state is `st` before the
first call: `NewAddress` calls `Sign` once, on
`underlay.Bytes() ++ PutUint64(networkID)`, so the second call finds the signer
in the state that this one `Sign` left. -/
def NewAddressTwice {PK MA σ : Type} (E : Collaborators PK MA) (S : StatefulSigner PK σ)
    (st : σ) (underlay : MA) (overlay : swarm.Address) (networkID : Nat) :
    Except GoError (bzz.Address MA) × Except GoError (bzz.Address MA) :=
  let first := bzz.NewAddress E (S.inState st) underlay overlay networkID
  let st1 := (S.Sign st (E.maBytes underlay ++ PutUint64 networkID)).2
  let second := bzz.NewAddress E (S.inState st1) underlay overlay networkID
  (first, second)

/-- A signer of key `k` that counts its calls and writes the header 27 on even
calls and 31 on odd calls. -/
def Fake.alternatingSigner (k : Byte) : StatefulSigner Byte Nat where
  Sign := fun st m => (.ok [k, Fake.digest m, if st % 2 = 0 then 27 else 31], st + 1)
  PublicKey := .ok k

/-! ## A second instance of the crypto module

Here a signature is the key followed by the whole message, so that a signature
belongs to one message only; overlays are derived as in `Fake`. -/

namespace Sound

/-- Signing with key `k`: the key, then the message. -/
def Sign (k : Byte) (m : Bytes) : Except GoError Bytes := .ok (k :: m)

/-- Key recovery: the signature is a key followed by exactly the message. -/
def Recover (sig m : Bytes) : Except GoError Byte :=
  match sig with
  | [] => .error (.other "invalid signature length")
  | k :: signed => if signed = m then .ok k else .error (.other "recovery failed")

/-- The instance: as `Fake.collaborators`, with this key recovery. -/
def collaborators : Collaborators Byte Bytes :=
  { Fake.collaborators with Recover := Recover }

/-- The signer holding key `k`. -/
def signer (k : Byte) : Signer Byte where
  Sign := Sign k
  PublicKey := .ok k

end Sound

/-! ## Version negotiation and stream resolution

The negotiating code (package `libp2p`) is exercised by `protocols_test.go`
but is not part of the source at hand; it is modelled from the specification,
sections 4.3 and 4.4. -/

/-- Modelled from the spec: a parsed semantic version
`MAJOR.MINOR.PATCH[-pre][+build]` (the negotiator's own code is missing). -/
structure Version where
  major : Nat
  minor : Nat
  patch : Nat
  prerelease : Option GoString
  build : Option GoString
  deriving DecidableEq, Repr

/-- Cut a string at the first occurrence of `sep`: the part before it and,
when `sep` occurs, the part after it. -/
def cutAt (sep : Byte) : GoString → GoString × Option GoString
  | [] => ([], none)
  | c :: cs =>
    if c = sep then ([], some cs)
    else ((cutAt sep cs).1.cons c, (cutAt sep cs).2)

/-- Split a string at every occurrence of `sep`. -/
def splitAt (sep : Byte) : GoString → List GoString
  | [] => [[]]
  | c :: cs =>
    if c = sep then [] :: splitAt sep cs
    else
      match splitAt sep cs with
      | [] => [[c]]
      | w :: ws => (c :: w) :: ws

/-- The value of a run of decimal digits read after the value `acc`;
`none` when a byte is not a digit. -/
def digitsFrom (acc : Nat) : GoString → Option Nat
  | [] => some acc
  | c :: cs =>
    if 48 ≤ c.val ∧ c.val ≤ 57 then digitsFrom (acc * 10 + (c.val - 48)) cs
    else none

/-- Modelled from the spec: a numeric component, one or more decimal digits
(the negotiator's parser is missing). -/
def parseNumber (s : GoString) : Option Nat :=
  if s = [] then none else digitsFrom 0 s

/-- Modelled from the spec: parsing `MAJOR.MINOR.PATCH[-pre][+build]` into
`(major, minor, patch, prerelease?, build?)`, the negotiator's parser being
missing.  The build suffix starts at the first `+`, the prerelease suffix at
the first `-` before it, and what remains must be exactly three numeric
components separated by dots; anything else is malformed. -/
def parseVersion (s : GoString) : Option Version :=
  let withoutBuild := cutAt 43 s
  let core := cutAt 45 withoutBuild.1
  match splitAt 46 core.1 with
  | [a, b, c] =>
    match parseNumber a, parseNumber b, parseNumber c with
    | some major, some minor, some patch =>
      some { major := major, minor := minor, patch := patch,
             prerelease := core.2, build := withoutBuild.2 }
    | _, _, _ => none
  | _ => none

/-- Modelled from the spec: the version negotiator `isCompatible(requested,
registered)` of section 4.3, whose code is missing: both strings are parsed, a
malformed one is incompatible, and otherwise the majors must be equal and the
requested minor at most the registered minor. -/
def isCompatible (requested registered : GoString) : Bool :=
  match parseVersion requested, parseVersion registered with
  | some r, some g => decide (r.major = g.major) && decide (r.minor ≤ g.minor)
  | _, _ => false

/-- Modelled from the spec: `StreamSpec{ name, handler }` (package `p2p`, missing). -/
structure StreamSpec (H : Type) where
  Name : GoString
  Handler : H

/-- Modelled from the spec: `ProtocolSpec{ name, version, streams }` (package
`p2p`, missing). -/
structure ProtocolSpec (H : Type) where
  Name : GoString
  Version : GoString
  StreamSpecs : List (StreamSpec H)

/-- Modelled from the spec: the "not supported" cause wrapped by an
incompatible-stream error (section 4.4; the error types are missing). -/
inductive NotSupported where
  | protocol : NotSupported
  | version : NotSupported
  | stream : NotSupported
  deriving DecidableEq, Repr

/-- Modelled from the spec: the error kinds of the connection/stream service
(section 7; the error types are missing).  The single kind
`IncompatibleStreamError` wraps its "not supported" cause. -/
inductive StreamError where
  | IncompatibleStreamError (cause : NotSupported) : StreamError
  | DisconnectRequested : StreamError
  | TransportFailure : StreamError
  | RegistrationConflict : StreamError
  deriving DecidableEq, Repr

/-- Modelled from the spec: `lookup(name)` of the protocol registry (section
4.2, code missing): the spec registered under the name, if any. -/
def lookup {H : Type} (registry : List (ProtocolSpec H)) (name : GoString) :
    Option (ProtocolSpec H) :=
  registry.find? fun p => decide (p.Name = name)

/-- Modelled from the spec: the negotiation steps of `newStream` for a
connected peer (section 4.4, code missing): the protocol name is looked up,
the requested version is checked against the registered one, the stream name
is located among the protocol's streams; each failure is an
`IncompatibleStreamError` wrapping its cause, success is the handler. -/
def resolveStream {H : Type} (registry : List (ProtocolSpec H))
    (protocolName requestedVersion streamName : GoString) : Except StreamError H :=
  match lookup registry protocolName with
  | none => .error (.IncompatibleStreamError .protocol)
  | some spec =>
    if isCompatible requestedVersion spec.Version then
      match spec.StreamSpecs.find? fun st => decide (st.Name = streamName) with
      | none => .error (.IncompatibleStreamError .stream)
      | some st => .ok st.Handler
    else .error (.IncompatibleStreamError .version)

/-- The protocol registered by `newTestProtocol` in `protocols_test.go`:
`testing`, version `2.3.4`, one stream `messages`. -/
def newTestProtocol {H : Type} (h : H) : ProtocolSpec H where
  Name := str "testing"
  Version := str "2.3.4"
  StreamSpecs := [{ Name := str "messages", Handler := h }]

/-! ## Theorems: `Parse`, `NewAddress`, `Equal` -/

/-- How `Parse` unfolds once `crypto.Recover` has returned a key. -/
theorem Parse_of_Recover_ok {PK MA : Type} (E : Collaborators PK MA)
    (underlay overlay signature : Bytes) (networkID : Nat) (pk : PK)
    (h : E.Recover signature (underlay ++ PutUint64 networkID) = .ok pk) :
    bzz.Parse E underlay overlay signature networkID =
      if (E.NewOverlayAddress pk networkID).Bytes = overlay then
        match E.NewMultiaddrBytes underlay with
        | .error _ => .error bzz.ErrInvalidAddress
        | .ok m => .ok { Underlay := m, Overlay := swarm.NewAddress overlay,
                         Signature := signature }
      else .error bzz.ErrInvalidAddress := by
  unfold bzz.Parse
  simp only [h, bytesEqual]
  by_cases hb : (E.NewOverlayAddress pk networkID).Bytes = overlay <;> simp [hb]

/-- How `Parse` unfolds when `crypto.Recover` fails. -/
theorem Parse_of_Recover_error {PK MA : Type} (E : Collaborators PK MA)
    (underlay overlay signature : Bytes) (networkID : Nat) (e : GoError)
    (h : E.Recover signature (underlay ++ PutUint64 networkID) = .error e) :
    bzz.Parse E underlay overlay signature networkID = .error bzz.ErrInvalidAddress := by
  unfold bzz.Parse
  simp only [h]

/-- A successful `Parse`, spelled out: the three checks passed and the result
holds the inputs. -/
theorem Parse_eq_ok_iff {PK MA : Type} (E : Collaborators PK MA)
    (underlay overlay signature : Bytes) (networkID : Nat) (a : bzz.Address MA) :
    bzz.Parse E underlay overlay signature networkID = .ok a ↔
      ∃ pk m, E.Recover signature (underlay ++ PutUint64 networkID) = .ok pk ∧
        (E.NewOverlayAddress pk networkID).Bytes = overlay ∧
        E.NewMultiaddrBytes underlay = .ok m ∧
        a = { Underlay := m, Overlay := swarm.NewAddress overlay, Signature := signature } := by
  constructor
  · intro h
    cases hr : E.Recover signature (underlay ++ PutUint64 networkID) with
    | error e => rw [Parse_of_Recover_error E _ _ _ _ e hr] at h; cases h
    | ok pk =>
      rw [Parse_of_Recover_ok E _ _ _ _ pk hr] at h
      by_cases hb : (E.NewOverlayAddress pk networkID).Bytes = overlay
      · rw [if_pos hb] at h
        cases hm : E.NewMultiaddrBytes underlay with
        | error e => rw [hm] at h; cases h
        | ok m =>
          rw [hm] at h
          injection h with h
          exact ⟨pk, m, rfl, hb, rfl, h.symm⟩
      · rw [if_neg hb] at h; cases h
  · rintro ⟨pk, m, hr, hb, hm, rfl⟩
    rw [Parse_of_Recover_ok E _ _ _ _ pk hr, if_pos hb, hm]

/-- Every failure of `Parse` is the sentinel. -/
theorem Parse_error_eq {PK MA : Type} (E : Collaborators PK MA)
    (underlay overlay signature : Bytes) (networkID : Nat) (e : GoError)
    (h : bzz.Parse E underlay overlay signature networkID = .error e) :
    e = bzz.ErrInvalidAddress := by
  cases hr : E.Recover signature (underlay ++ PutUint64 networkID) with
  | error e' =>
    rw [Parse_of_Recover_error E _ _ _ _ e' hr] at h
    injection h with h
    exact h.symm
  | ok pk =>
    rw [Parse_of_Recover_ok E _ _ _ _ pk hr] at h
    by_cases hb : (E.NewOverlayAddress pk networkID).Bytes = overlay
    · rw [if_pos hb] at h
      cases hm : E.NewMultiaddrBytes underlay with
      | error e' =>
        rw [hm] at h
        injection h with h
        exact h.symm
      | ok m => rw [hm] at h; cases h
    · rw [if_neg hb] at h
      injection h with h
      exact h.symm

/-- `Parse` either returns an address or fails with the sentinel. -/
theorem Parse_ok_or_invalid {PK MA : Type} (E : Collaborators PK MA)
    (underlay overlay signature : Bytes) (networkID : Nat) :
    (∃ a, bzz.Parse E underlay overlay signature networkID = .ok a) ∨
      bzz.Parse E underlay overlay signature networkID = .error bzz.ErrInvalidAddress := by
  cases h : bzz.Parse E underlay overlay signature networkID with
  | ok a => exact Or.inl ⟨a, rfl⟩
  | error e => rw [Parse_error_eq E _ _ _ _ e h]; exact Or.inr rfl

/-- C1: `Parse` succeeds exactly when `crypto.Recover` on
`underlay ++ bigEndian64(networkID)` returns a key, the overlay derived from
that key and `networkID` is byte-for-byte the given overlay, and the underlay
decodes as a multiaddr; a returned address holds the given overlay bytes, the
given signature and the decoded underlay, so its overlay is the one derived
from the key recovered from its signature. -/
theorem Parse_succeeds_iff_checks {PK MA : Type} (E : Collaborators PK MA)
    (underlay overlay signature : Bytes) (networkID : Nat) :
    ((∃ a, bzz.Parse E underlay overlay signature networkID = .ok a) ↔
      ∃ pk, E.Recover signature (underlay ++ PutUint64 networkID) = .ok pk ∧
        (E.NewOverlayAddress pk networkID).Bytes = overlay ∧
        ∃ m, E.NewMultiaddrBytes underlay = .ok m) ∧
    (∀ a, bzz.Parse E underlay overlay signature networkID = .ok a →
      a.Overlay.Bytes = overlay ∧ a.Signature = signature ∧
      E.NewMultiaddrBytes underlay = .ok a.Underlay ∧
      ∃ pk, E.Recover a.Signature (underlay ++ PutUint64 networkID) = .ok pk ∧
        a.Overlay = E.NewOverlayAddress pk networkID) := by
  refine ⟨⟨?_, ?_⟩, ?_⟩
  · rintro ⟨a, h⟩
    obtain ⟨pk, m, hr, hb, hm, -⟩ := (Parse_eq_ok_iff E _ _ _ _ a).mp h
    exact ⟨pk, hr, hb, m, hm⟩
  · rintro ⟨pk, hr, hb, m, hm⟩
    exact ⟨_, (Parse_eq_ok_iff E _ _ _ _ _).mpr ⟨pk, m, hr, hb, hm, rfl⟩⟩
  · intro a h
    obtain ⟨pk, m, hr, hb, hm, rfl⟩ := (Parse_eq_ok_iff E _ _ _ _ a).mp h
    refine ⟨rfl, rfl, hm, pk, hr, ?_⟩
    show swarm.NewAddress overlay = E.NewOverlayAddress pk networkID
    rw [← hb]
    rfl

/-- C3: whenever `Parse` fails the error is `ErrInvalidAddress` and nothing
else (an `Except` failure carries no address): a failure of key recovery, a
recovered overlay that differs from the given one and an underlay that does
not decode all give that one value, whatever error the collaborator
returned. -/
theorem Parse_fails_only_with_ErrInvalidAddress {PK MA : Type} (E : Collaborators PK MA)
    (underlay overlay signature : Bytes) (networkID : Nat) :
    (∀ e, bzz.Parse E underlay overlay signature networkID = .error e →
      e = bzz.ErrInvalidAddress) ∧
    ((∃ a, bzz.Parse E underlay overlay signature networkID = .ok a) ∨
      bzz.Parse E underlay overlay signature networkID = .error bzz.ErrInvalidAddress) ∧
    (∀ e, E.Recover signature (underlay ++ PutUint64 networkID) = .error e →
      bzz.Parse E underlay overlay signature networkID = .error bzz.ErrInvalidAddress) ∧
    (∀ pk, E.Recover signature (underlay ++ PutUint64 networkID) = .ok pk →
      (E.NewOverlayAddress pk networkID).Bytes ≠ overlay →
      bzz.Parse E underlay overlay signature networkID = .error bzz.ErrInvalidAddress) ∧
    (∀ e, E.NewMultiaddrBytes underlay = .error e →
      bzz.Parse E underlay overlay signature networkID = .error bzz.ErrInvalidAddress) := by
  refine ⟨fun e h => Parse_error_eq E _ _ _ _ e h, Parse_ok_or_invalid E _ _ _ _, ?_, ?_, ?_⟩
  · intro e hr
    exact Parse_of_Recover_error E _ _ _ _ e hr
  · intro pk hr hb
    rw [Parse_of_Recover_ok E _ _ _ _ pk hr, if_neg hb]
  · intro e hm
    rcases Parse_ok_or_invalid E underlay overlay signature networkID with ⟨a, h⟩ | h
    · obtain ⟨pk, m, -, -, hm', -⟩ := (Parse_eq_ok_iff E _ _ _ _ a).mp h
      rw [hm] at hm'
      cases hm'
    · exact h

/-- `Equal` is the conjunction of its three comparisons. -/
theorem Equal_eq_true_iff {PK MA : Type} (E : Collaborators PK MA) (a b : bzz.Address MA) :
    bzz.Address.Equal E a b = true ↔
      a.Overlay = b.Overlay ∧ E.maEqual a.Underlay b.Underlay = true ∧
        a.Signature = b.Signature := by
  obtain ⟨ua, ⟨oa⟩, sa⟩ := a
  obtain ⟨ub, ⟨ob⟩, sb⟩ := b
  simp [bzz.Address.Equal, swarm.Address.Equal, bytesEqual, and_assoc]

/-- C7: `a.Equal(b)` holds exactly when the overlays are equal, the underlays
are equal (by the multiaddr's own `Equal`) and the signatures are the same
bytes; with equal overlays and underlays and different signature bytes the
two addresses are not `Equal`. -/
theorem Equal_iff_overlay_underlay_signature {PK MA : Type} (E : Collaborators PK MA)
    (a b : bzz.Address MA) :
    (bzz.Address.Equal E a b = true ↔
      a.Overlay = b.Overlay ∧ E.maEqual a.Underlay b.Underlay = true ∧
        a.Signature = b.Signature) ∧
    (a.Overlay = b.Overlay → E.maEqual a.Underlay b.Underlay = true →
      a.Signature ≠ b.Signature → bzz.Address.Equal E a b = false) := by
  refine ⟨Equal_eq_true_iff E a b, ?_⟩
  intro _ _ hs
  cases h : bzz.Address.Equal E a b with
  | false => rfl
  | true => exact absurd ((Equal_eq_true_iff E a b).mp h).2.2 hs

/-- `NewAddress` is decided by the signer's result on
`underlay.Bytes() ++ bigEndian64(networkID)`. -/
theorem NewAddress_eq {PK MA : Type} (E : Collaborators PK MA) (signer : Signer PK)
    (underlay : MA) (overlay : swarm.Address) (networkID : Nat) :
    bzz.NewAddress E signer underlay overlay networkID =
      match signer.Sign (E.maBytes underlay ++ PutUint64 networkID) with
      | .error err => .error err
      | .ok signature =>
        .ok { Underlay := underlay, Overlay := overlay, Signature := signature } := rfl

/-- A successful `NewAddress` holds its arguments and the signer's output. -/
theorem NewAddress_ok_fields {PK MA : Type} (E : Collaborators PK MA)
    (signer : Signer PK) (underlay : MA) (overlay : swarm.Address) (networkID : Nat)
    (a : bzz.Address MA) (h : bzz.NewAddress E signer underlay overlay networkID = .ok a) :
    a.Underlay = underlay ∧ a.Overlay = overlay ∧
      signer.Sign (E.maBytes underlay ++ PutUint64 networkID) = .ok a.Signature := by
  rw [NewAddress_eq] at h
  cases hs : signer.Sign (E.maBytes underlay ++ PutUint64 networkID) with
  | error e => rw [hs] at h; cases h
  | ok sig =>
    rw [hs] at h
    injection h with h
    subst h
    exact ⟨rfl, rfl, rfl⟩

/-- C10: `NewAddress` fails exactly when the signer fails on
`underlay.Bytes() ++ bigEndian64(networkID)`, and then with the signer's error
unchanged; when the signer returns a signature, the address holds the given
underlay and overlay and that signature. -/
theorem NewAddress_fails_iff_signer_fails {PK MA : Type} (E : Collaborators PK MA)
    (signer : Signer PK) (underlay : MA) (overlay : swarm.Address) (networkID : Nat) :
    (∀ e, bzz.NewAddress E signer underlay overlay networkID = .error e ↔
      signer.Sign (E.maBytes underlay ++ PutUint64 networkID) = .error e) ∧
    (∀ sig, signer.Sign (E.maBytes underlay ++ PutUint64 networkID) = .ok sig →
      bzz.NewAddress E signer underlay overlay networkID =
        .ok { Underlay := underlay, Overlay := overlay, Signature := sig }) ∧
    (∀ a, bzz.NewAddress E signer underlay overlay networkID = .ok a →
      a.Underlay = underlay ∧ a.Overlay = overlay ∧
      signer.Sign (E.maBytes underlay ++ PutUint64 networkID) = .ok a.Signature) := by
  rw [NewAddress_eq]
  cases h : signer.Sign (E.maBytes underlay ++ PutUint64 networkID) with
  | error e' => simp
  | ok sig =>
    refine ⟨by simp, by simp, ?_⟩
    intro a ha
    injection ha with ha
    subst ha
    exact ⟨rfl, rfl, rfl⟩

/-- C2: when the signer with public key `pk` signs
`underlay.Bytes() ++ bigEndian64(networkID)`, `crypto.Recover` returns `pk`
from that signature and message, and the underlay's bytes decode to an
`Equal` multiaddr, then `NewAddress` with the overlay derived from `pk`
returns an address `a`, and `Parse` on the bytes of `a` succeeds with an
address whose overlay is the one derived from `pk` and which is `Equal` to
`a`. -/
theorem Parse_NewAddress_roundtrip {PK MA : Type} (E : Collaborators PK MA)
    (signer : Signer PK) (underlay : MA) (networkID : Nat) (pk : PK) (sig : Bytes) (m : MA)
    (_hpk : signer.PublicKey = .ok pk)
    (hsign : signer.Sign (E.maBytes underlay ++ PutUint64 networkID) = .ok sig)
    (hrec : E.Recover sig (E.maBytes underlay ++ PutUint64 networkID) = .ok pk)
    (hdec : E.NewMultiaddrBytes (E.maBytes underlay) = .ok m)
    (heq : E.maEqual m underlay = true) :
    ∃ a p, bzz.NewAddress E signer underlay (E.NewOverlayAddress pk networkID) networkID = .ok a ∧
      bzz.Parse E (E.maBytes a.Underlay) a.Overlay.Bytes a.Signature networkID = .ok p ∧
      p.Overlay = E.NewOverlayAddress pk networkID ∧
      bzz.Address.Equal E p a = true := by
  refine ⟨{ Underlay := underlay, Overlay := E.NewOverlayAddress pk networkID, Signature := sig },
    { Underlay := m, Overlay := swarm.NewAddress (E.NewOverlayAddress pk networkID).Bytes,
      Signature := sig }, ?_, ?_, rfl, ?_⟩
  · rw [NewAddress_eq, hsign]
  · exact (Parse_eq_ok_iff E _ _ _ _ _).mpr ⟨pk, m, hrec, rfl, hdec, rfl⟩
  · exact (Equal_eq_true_iff E _ _).mpr ⟨rfl, heq, rfl⟩

/-- Witness of C2: key 7, underlay `04 7f 00 00 01`, network 1. -/
theorem Parse_NewAddress_roundtrip_witness :
    ∃ a p, bzz.NewAddress Fake.collaborators (Fake.signer 7) [4, 127, 0, 0, 1]
        (Fake.collaborators.NewOverlayAddress 7 1) 1 = .ok a ∧
      bzz.Parse Fake.collaborators (Fake.collaborators.maBytes a.Underlay) a.Overlay.Bytes
        a.Signature 1 = .ok p ∧
      p.Overlay = Fake.collaborators.NewOverlayAddress 7 1 ∧
      bzz.Address.Equal Fake.collaborators p a = true :=
  Parse_NewAddress_roundtrip Fake.collaborators (Fake.signer 7) [4, 127, 0, 0, 1] 1 7
    [7, 19, 27] [4, 127, 0, 0, 1] (by decide) (by decide) (by decide) (by decide) (by decide)

/-- Once `Parse` accepts an overlay it rejects every other one for the same
underlay, signature and network. -/
theorem Parse_other_overlay {PK MA : Type} (E : Collaborators PK MA)
    (underlay overlay overlay2 signature : Bytes) (networkID : Nat) (a : bzz.Address MA)
    (h : bzz.Parse E underlay overlay signature networkID = .ok a) (hne : overlay2 ≠ overlay) :
    bzz.Parse E underlay overlay2 signature networkID = .error bzz.ErrInvalidAddress := by
  obtain ⟨pk, m, hr, hb, -, -⟩ := (Parse_eq_ok_iff E _ _ _ _ a).mp h
  rw [Parse_of_Recover_ok E _ _ _ _ pk hr, if_neg]
  rw [hb]
  exact fun h' => hne h'.symm

/-- `Parse` fails when no recovered key derives the given overlay. -/
theorem Parse_of_no_matching_key {PK MA : Type} (E : Collaborators PK MA)
    (underlay overlay signature : Bytes) (networkID : Nat)
    (h : ∀ pk, E.Recover signature (underlay ++ PutUint64 networkID) = .ok pk →
      (E.NewOverlayAddress pk networkID).Bytes ≠ overlay) :
    bzz.Parse E underlay overlay signature networkID = .error bzz.ErrInvalidAddress := by
  cases hr : E.Recover signature (underlay ++ PutUint64 networkID) with
  | error e => exact Parse_of_Recover_error E _ _ _ _ e hr
  | ok pk => rw [Parse_of_Recover_ok E _ _ _ _ pk hr, if_neg (h pk hr)]

/-! ## Theorems: version negotiation -/

/-- The negotiator on two well-formed versions. -/
theorem isCompatible_of_parsed (req reg : GoString) (r g : Version)
    (hr : parseVersion req = some r) (hg : parseVersion reg = some g) :
    isCompatible req reg = (decide (r.major = g.major) && decide (r.minor ≤ g.minor)) := by
  unfold isCompatible
  rw [hr, hg]

/-- The negotiator on a malformed requested version. -/
theorem isCompatible_of_malformed (req reg : GoString) (hr : parseVersion req = none) :
    isCompatible req reg = false := by
  unfold isCompatible
  rw [hr]

/-- C5: for well-formed requested and registered versions the negotiator
accepts exactly when the majors are equal and the requested minor is at most
the registered minor, so the outcome is the same for any two pairs that agree
on major and minor, whatever their patch, prerelease and build; against the
registered `2.3.4` of the test protocol the requests 2.0.0, 2.2.0, 2.3.0,
2.3.1, 2.3.4, 2.3.5, 2.3.5-beta, 2.3.5+beta, 2.3.6, 2.3.6-beta, 2.3.6+beta are
accepted and the stream is resolved, and 0.0.0, 0.1.0, 1.0.0, 2.4.0, 3.0.0 are
well-formed and rejected as version not supported. -/
theorem isCompatible_iff_major_eq_minor_le :
    (∀ req reg r g, parseVersion req = some r → parseVersion reg = some g →
      (isCompatible req reg = true ↔ r.major = g.major ∧ r.minor ≤ g.minor)) ∧
    (∀ req reg req2 reg2 r g r2 g2,
      parseVersion req = some r → parseVersion reg = some g →
      parseVersion req2 = some r2 → parseVersion reg2 = some g2 →
      r.major = r2.major → r.minor = r2.minor → g.major = g2.major → g.minor = g2.minor →
      isCompatible req reg = isCompatible req2 reg2) ∧
    (∀ v ∈ [str "2.0.0", str "2.2.0", str "2.3.0", str "2.3.1", str "2.3.4", str "2.3.5",
        str "2.3.5-beta", str "2.3.5+beta", str "2.3.6", str "2.3.6-beta", str "2.3.6+beta"],
      isCompatible v (str "2.3.4") = true ∧
      resolveStream [newTestProtocol ()] (str "testing") v (str "messages") = .ok ()) ∧
    (∀ v ∈ [str "0.0.0", str "0.1.0", str "1.0.0", str "2.4.0", str "3.0.0"],
      (parseVersion v).isSome = true ∧ isCompatible v (str "2.3.4") = false ∧
      resolveStream [newTestProtocol ()] (str "testing") v (str "messages") =
        .error (.IncompatibleStreamError .version)) := by
  refine ⟨?_, ?_, by decide, by decide⟩
  · intro req reg r g hr hg
    rw [isCompatible_of_parsed req reg r g hr hg]
    simp
  · intro req reg req2 reg2 r g r2 g2 hr hg hr2 hg2 h1 h2 h3 h4
    rw [isCompatible_of_parsed req reg r g hr hg,
      isCompatible_of_parsed req2 reg2 r2 g2 hr2 hg2, h1, h2, h3, h4]

/-- C6: a requested version that is not well-formed is incompatible with every
registered version (the negotiator is a total function, it returns `false`),
and a stream request carrying it fails with an incompatible-stream error for
every registry; the requests `0`, `1`, `2`, `3`, `4`, `a` and `invalid` are
malformed and are rejected as version not supported against the test protocol
`2.3.4`, the request `2` included. -/
theorem isCompatible_malformed_rejected :
    (∀ req reg, parseVersion req = none → isCompatible req reg = false) ∧
    (∀ (H : Type) (registry : List (ProtocolSpec H)) (name req stream : GoString),
      parseVersion req = none →
      ∃ cause, resolveStream registry name req stream =
        .error (.IncompatibleStreamError cause)) ∧
    (∀ v ∈ [str "0", str "1", str "2", str "3", str "4", str "a", str "invalid"],
      parseVersion v = none ∧ isCompatible v (str "2.3.4") = false ∧
      resolveStream [newTestProtocol ()] (str "testing") v (str "messages") =
        .error (.IncompatibleStreamError .version)) := by
  refine ⟨isCompatible_of_malformed, ?_, by decide⟩
  intro H registry name req stream hr
  unfold resolveStream
  cases lookup registry name with
  | none => exact ⟨.protocol, rfl⟩
  | some spec =>
    refine ⟨.version, ?_⟩
    simp [isCompatible_of_malformed req spec.Version hr]

/-! ## Theorems: the wire record -/

/-- A hex digit reads back as its value. -/
theorem fromHexChar_hexDigit : ∀ n, n < 16 → fromHexChar (hexDigit n) = some n := by
  decide

/-- Two nibbles make the byte they came from. -/
theorem byteOfNat_nibbles (b : Byte) : byteOfNat (b.val / 16 * 16 + b.val % 16) = b := by
  apply Fin.ext
  have hb := b.isLt
  simp only [byteOfNat]
  omega

/-- `hex.DecodeString` inverts `hex.EncodeToString`. -/
theorem hexDecodeString_hexEncodeToString (s : Bytes) :
    hexDecodeString (hexEncodeToString s) = .ok s := by
  induction s with
  | nil => rfl
  | cons b bs ih =>
    have h1 : fromHexChar (hexDigit (b.val / 16)) = some (b.val / 16) :=
      fromHexChar_hexDigit _ (by have := b.isLt; omega)
    have h2 : fromHexChar (hexDigit (b.val % 16)) = some (b.val % 16) :=
      fromHexChar_hexDigit _ (Nat.mod_lt _ (by decide))
    simp only [hexEncodeToString, hexDecodeString, h1, h2, ih, byteOfNat_nibbles]

/-- `swarm.ParseHexAddress` inverts `Address.String`. -/
theorem ParseHexAddress_String (a : swarm.Address) :
    swarm.ParseHexAddress a.String = .ok a := by
  simp only [swarm.ParseHexAddress, swarm.Address.String, hexDecodeString_hexEncodeToString]
  rfl

/-- A character of the standard alphabet reads back as its index. -/
theorem decodeStd_encodeStd : ∀ i, i < 64 → decodeStd (encodeStd i) = some i := by
  decide

/-- The same, for an index reduced modulo 64. -/
theorem decodeStd_encodeStd_mod (x : Nat) : decodeStd (encodeStd (x % 64)) = some (x % 64) :=
  decodeStd_encodeStd _ (Nat.mod_lt _ (by decide))

/-- A full quantum decodes to the three bytes it encodes. -/
theorem quantumBytes_full (a b c : Byte) :
    quantumBytes ((a.val * 65536 + b.val * 256 + c.val) / 262144 % 64)
      ((a.val * 65536 + b.val * 256 + c.val) / 4096 % 64)
      ((a.val * 65536 + b.val * 256 + c.val) / 64 % 64)
      ((a.val * 65536 + b.val * 256 + c.val) % 64) 4 = [a, b, c] := by
  have ha := a.isLt
  have hb := b.isLt
  have hc := c.isLt
  simp only [quantumBytes, byteOfNat, List.take, Nat.add_one_sub_one]
  refine congrArg₂ _ (Fin.ext ?_) (congrArg₂ _ (Fin.ext ?_) (congrArg₂ _ (Fin.ext ?_) rfl))
  all_goals simp only []
  all_goals omega

/-- A quantum padded with `==` decodes to its one byte. -/
theorem quantumBytes_one (a : Byte) :
    quantumBytes (a.val * 65536 / 262144 % 64) (a.val * 65536 / 4096 % 64) 0 0 2 = [a] := by
  have ha := a.isLt
  simp only [quantumBytes, byteOfNat, List.take]
  refine congrArg₂ _ (Fin.ext ?_) rfl
  simp only []
  omega

/-- A quantum padded with `=` decodes to its two bytes. -/
theorem quantumBytes_two (a b : Byte) :
    quantumBytes ((a.val * 65536 + b.val * 256) / 262144 % 64)
      ((a.val * 65536 + b.val * 256) / 4096 % 64)
      ((a.val * 65536 + b.val * 256) / 64 % 64) 0 3 = [a, b] := by
  have ha := a.isLt
  have hb := b.isLt
  simp only [quantumBytes, byteOfNat, List.take]
  refine congrArg₂ _ (Fin.ext ?_) (congrArg₂ _ (Fin.ext ?_) rfl)
  all_goals simp only []
  all_goals omega

/-- The padding byte is outside the alphabet. -/
theorem decodeStd_pad : decodeStd 61 = none := by decide

/-- Reading the first character of a quantum. -/
theorem decodeFrom_first (c : Byte) (cs : GoString) (v : Nat) (h : decodeStd c = some v) :
    decodeFrom [] (c :: cs) = decodeFrom [v] cs := by
  rw [decodeFrom]
  · simp only [h]
    rfl
  all_goals simp

/-- Reading the second character of a quantum. -/
theorem decodeFrom_second (d0 : Nat) (c : Byte) (cs : GoString) (v : Nat)
    (h : decodeStd c = some v) :
    decodeFrom [d0] (c :: cs) = decodeFrom [d0, v] cs := by
  rw [decodeFrom]
  · simp only [h]
    rfl
  all_goals simp

/-- Reading the third character of a quantum. -/
theorem decodeFrom_third (d0 d1 : Nat) (c : Byte) (cs : GoString) (v : Nat)
    (h : decodeStd c = some v) :
    decodeFrom [d0, d1] (c :: cs) = decodeFrom [d0, d1, v] cs := by
  rw [decodeFrom]
  simp only [h]
  rfl

/-- Reading the fourth character of a quantum writes its three bytes. -/
theorem decodeFrom_fourth (d0 d1 d2 : Nat) (c : Byte) (cs : GoString) (v : Nat)
    (h : decodeStd c = some v) :
    decodeFrom [d0, d1, d2] (c :: cs) =
      (quantumBytes d0 d1 d2 v 4 ++ (decodeFrom [] cs).1, (decodeFrom [] cs).2) := by
  rw [decodeFrom]
  simp only [h]

/-- Two values followed by `==` at the end of the input. -/
theorem decodeFrom_pad_two (d0 d1 : Nat) :
    decodeFrom [d0, d1] [61, 61] = (quantumBytes d0 d1 0 0 2, none) := rfl

/-- Three values followed by `=` at the end of the input. -/
theorem decodeFrom_pad_one (d0 d1 d2 : Nat) :
    decodeFrom [d0, d1, d2] [61] = (quantumBytes d0 d1 d2 0 3, none) := rfl

/-- Decoding inverts encoding, from the start of a quantum. -/
theorem decodeFrom_base64EncodeToString (s : Bytes) :
    decodeFrom [] (base64EncodeToString s) = (s, none) := by
  induction s using base64EncodeToString.induct with
  | case1 => rfl
  | case2 a =>
    simp only [base64EncodeToString]
    rw [decodeFrom_first _ _ _ (decodeStd_encodeStd_mod _),
      decodeFrom_second _ _ _ _ (decodeStd_encodeStd_mod _), decodeFrom_pad_two,
      quantumBytes_one]
  | case3 a b =>
    simp only [base64EncodeToString]
    rw [decodeFrom_first _ _ _ (decodeStd_encodeStd_mod _),
      decodeFrom_second _ _ _ _ (decodeStd_encodeStd_mod _),
      decodeFrom_third _ _ _ _ _ (decodeStd_encodeStd_mod _), decodeFrom_pad_one,
      quantumBytes_two]
  | case4 a b c rest ih =>
    simp only [base64EncodeToString]
    rw [decodeFrom_first _ _ _ (decodeStd_encodeStd_mod _),
      decodeFrom_second _ _ _ _ (decodeStd_encodeStd_mod _),
      decodeFrom_third _ _ _ _ _ (decodeStd_encodeStd_mod _),
      decodeFrom_fourth _ _ _ _ _ _ (decodeStd_encodeStd_mod _), ih, quantumBytes_full]
    rfl

/-- `base64.StdEncoding.DecodeString` inverts `EncodeToString`, without error. -/
theorem base64DecodeString_base64EncodeToString (s : Bytes) :
    base64DecodeString (base64EncodeToString s) = (s, none) :=
  decodeFrom_base64EncodeToString s

/-- The receiver left by a successful `UnmarshalJSON`. -/
theorem UnmarshalJSON_of_fields {PK MA : Type} (E : Collaborators PK MA) (p : bzz.Receiver MA)
    (b : Bytes) (v : WireRecord) (o : swarm.Address) (m : MA) (sig : Bytes)
    (hj : E.jsonUnmarshal b = .ok v) (ho : swarm.ParseHexAddress v.Overlay = .ok o)
    (hm : E.NewMultiaddr v.Underlay = .ok m)
    (hs : base64DecodeString v.Signature = (sig, none)) :
    bzz.UnmarshalJSON E p b = ({ Underlay := some m, Overlay := o, Signature := sig }, none) := by
  unfold bzz.UnmarshalJSON
  simp only [hj, ho, hm, hs]

/-- C8: for an address `a` whose record `json.Marshal` encodes as `bs` and
`json.Unmarshal` reads back, and whose underlay text `NewMultiaddr` reads back
to an `Equal` multiaddr, `MarshalJSON(a)` returns `bs` and `UnmarshalJSON` of
`bs` into any receiver returns no error and leaves an address that is `Equal`
to `a`: the hex text of the overlay parses back to the same overlay and
standard base64 decoding of the encoded signature returns the same signature
bytes, the empty signature included. -/
theorem UnmarshalJSON_MarshalJSON_roundtrip {PK MA : Type} (E : Collaborators PK MA)
    (a : bzz.Address MA) (p : bzz.Receiver MA) (bs : Bytes) (m : MA)
    (hmarshal : E.jsonMarshal (bzz.wireRecord E a) = .ok bs)
    (hunmarshal : E.jsonUnmarshal bs = .ok (bzz.wireRecord E a))
    (htext : E.NewMultiaddr (E.maString a.Underlay) = .ok m)
    (hequal : E.maEqual m a.Underlay = true) :
    bzz.Address.MarshalJSON E a = .ok bs ∧
    bzz.UnmarshalJSON E p bs =
      ({ Underlay := some m, Overlay := a.Overlay, Signature := a.Signature }, none) ∧
    bzz.Address.Equal E { Underlay := m, Overlay := a.Overlay, Signature := a.Signature } a
      = true ∧
    swarm.ParseHexAddress a.Overlay.String = .ok a.Overlay ∧
    base64DecodeString (base64EncodeToString a.Signature) = (a.Signature, none) ∧
    base64DecodeString (base64EncodeToString []) = ([], none) := by
  refine ⟨hmarshal, ?_, ?_, ParseHexAddress_String _,
    base64DecodeString_base64EncodeToString _, rfl⟩
  · exact UnmarshalJSON_of_fields E p bs (bzz.wireRecord E a) a.Overlay m a.Signature
      hunmarshal (ParseHexAddress_String _) htext (base64DecodeString_base64EncodeToString _)
  · exact (Equal_eq_true_iff E _ _).mpr ⟨rfl, hequal, rfl⟩

/-- Witness of C8: the address of key 7 on network 1 with underlay
`04 7f 00 00 01`, decoded into the zero receiver. -/
theorem UnmarshalJSON_MarshalJSON_roundtrip_witness :
    bzz.Address.MarshalJSON Fake.collaborators
        ⟨[4, 127, 0, 0, 1], Fake.NewOverlayAddress 7 1, [7, 19, 27]⟩ =
      .ok (str ("\x7b\x22Overlay\x22:\x22070000000000000001\x22," ++
        "\x22Underlay\x22:\x22/047f000001\x22,\x22Signature\x22:\x22BxMb\x22\x7d")) ∧
    bzz.UnmarshalJSON Fake.collaborators ⟨none, ⟨[]⟩, []⟩
        (str ("\x7b\x22Overlay\x22:\x22070000000000000001\x22," ++
          "\x22Underlay\x22:\x22/047f000001\x22,\x22Signature\x22:\x22BxMb\x22\x7d")) =
      ({ Underlay := some [4, 127, 0, 0, 1], Overlay := Fake.NewOverlayAddress 7 1,
         Signature := [7, 19, 27] }, none) ∧
    bzz.Address.Equal Fake.collaborators
      { Underlay := [4, 127, 0, 0, 1], Overlay := Fake.NewOverlayAddress 7 1,
        Signature := [7, 19, 27] }
      ⟨[4, 127, 0, 0, 1], Fake.NewOverlayAddress 7 1, [7, 19, 27]⟩ = true ∧
    swarm.ParseHexAddress (Fake.NewOverlayAddress 7 1).String = .ok (Fake.NewOverlayAddress 7 1) ∧
    base64DecodeString (base64EncodeToString [7, 19, 27]) = ([7, 19, 27], none) ∧
    base64DecodeString (base64EncodeToString []) = ([], none) :=
  UnmarshalJSON_MarshalJSON_roundtrip Fake.collaborators
    ⟨[4, 127, 0, 0, 1], Fake.NewOverlayAddress 7 1, [7, 19, 27]⟩ ⟨none, ⟨[]⟩, []⟩ _
    [4, 127, 0, 0, 1] (by decide) (by decide) (by decide) (by decide)

/-! ## Theorems: the signed message -/

/-- Eight bytes are written. -/
theorem PutUint64_length (n : Nat) : (PutUint64 n).length = 8 := rfl

/-- Reading the eight bytes back gives the 64-bit value. -/
theorem Uint64_PutUint64 (n : Nat) : Uint64 (PutUint64 n) = some (n % 2 ^ 64) := by
  simp only [PutUint64, Uint64, byteOfNat]
  congr 1
  omega

/-- Different 64-bit values are written as different bytes. -/
theorem PutUint64_injective (n n2 : Nat) (hn : n < 2 ^ 64) (hn2 : n2 < 2 ^ 64)
    (h : PutUint64 n = PutUint64 n2) : n = n2 := by
  have h1 := Uint64_PutUint64 n
  rw [h, Uint64_PutUint64 n2] at h1
  injection h1 with h1
  rw [Nat.mod_eq_of_lt hn, Nat.mod_eq_of_lt hn2] at h1
  exact h1.symm

/-- C11: `NewAddress` hands the signer, and `Parse` hands `crypto.Recover`, the
underlay bytes followed by `PutUint64(networkID)`, the same byte string for
the same underlay bytes `u`; for a 64-bit `n` that string has length
`len(u) + 8`, starts with `u` and ends with eight bytes that read back
big-endian as `n`, so two different network identifiers give different
messages for the same underlay. -/
theorem message_is_underlay_then_bigEndian_networkID {PK MA : Type}
    (E : Collaborators PK MA) (signer : Signer PK) (underlay : MA) (overlay : swarm.Address)
    (u o s : Bytes) (n n2 : Nat) (hn : n < 2 ^ 64) (hn2 : n2 < 2 ^ 64) (hne : n ≠ n2) :
    (bzz.NewAddress E signer underlay overlay n =
      match signer.Sign (E.maBytes underlay ++ PutUint64 n) with
      | .error err => .error err
      | .ok signature =>
        .ok { Underlay := underlay, Overlay := overlay, Signature := signature }) ∧
    (∀ e, E.Recover s (u ++ PutUint64 n) = .error e →
      bzz.Parse E u o s n = .error bzz.ErrInvalidAddress) ∧
    (∀ pk, E.Recover s (u ++ PutUint64 n) = .ok pk →
      bzz.Parse E u o s n =
        if (E.NewOverlayAddress pk n).Bytes = o then
          match E.NewMultiaddrBytes u with
          | .error _ => .error bzz.ErrInvalidAddress
          | .ok m => .ok { Underlay := m, Overlay := swarm.NewAddress o, Signature := s }
        else .error bzz.ErrInvalidAddress) ∧
    (PutUint64 n).length = 8 ∧
    Uint64 (PutUint64 n) = some n ∧
    (u ++ PutUint64 n).length = u.length + 8 ∧
    (u ++ PutUint64 n).take u.length = u ∧
    (u ++ PutUint64 n).drop u.length = PutUint64 n ∧
    Uint64 ((u ++ PutUint64 n).drop u.length) = some n ∧
    u ++ PutUint64 n ≠ u ++ PutUint64 n2 := by
  have hread : Uint64 (PutUint64 n) = some n := by
    rw [Uint64_PutUint64, Nat.mod_eq_of_lt hn]
  have hdrop : (u ++ PutUint64 n).drop u.length = PutUint64 n := List.drop_left _ _
  refine ⟨rfl, fun e he => Parse_of_Recover_error E _ _ _ _ e he,
    fun pk hpk => Parse_of_Recover_ok E _ _ _ _ pk hpk, rfl, hread, ?_, List.take_left _ _,
    hdrop, ?_, ?_⟩
  · rw [List.length_append, PutUint64_length]
  · rw [hdrop, hread]
  · intro h
    exact hne (PutUint64_injective n n2 hn hn2 (List.append_cancel_left h))

/-- Witness of C11: underlay `04 7f 00 00 01`, networks 1 and 258. -/
theorem message_is_underlay_then_bigEndian_networkID_witness :
    ([4, 127, 0, 0, 1] ++ PutUint64 1 : Bytes) = [4, 127, 0, 0, 1, 0, 0, 0, 0, 0, 0, 0, 1] ∧
    Uint64 (PutUint64 1) = some 1 ∧
    ([4, 127, 0, 0, 1] ++ PutUint64 1 : Bytes) ≠ [4, 127, 0, 0, 1] ++ PutUint64 258 :=
  have h := message_is_underlay_then_bigEndian_networkID Fake.collaborators (Fake.signer 7)
    [4, 127, 0, 0, 1] (Fake.NewOverlayAddress 7 1) [4, 127, 0, 0, 1]
    ((7 : Byte) :: PutUint64 1) [7, 19, 27] 1 258 (by decide) (by decide) (by decide)
  ⟨by decide, h.2.2.2.2.1, h.2.2.2.2.2.2.2.2.2⟩

/-! ## Theorems: what `Parse` and `NewAddress` bind -/

/-- C17: for a fixed underlay, signature and network identifier `Parse` accepts
at most one overlay: two accepted overlays are the same bytes, and once an
overlay is accepted every other byte string, of the same or another length,
is rejected with `ErrInvalidAddress`. -/
theorem Parse_accepts_one_overlay {PK MA : Type} (E : Collaborators PK MA)
    (u o1 s : Bytes) (n : Nat) (a1 : bzz.Address MA)
    (h1 : bzz.Parse E u o1 s n = .ok a1) :
    (∀ o2 a2, bzz.Parse E u o2 s n = .ok a2 → o2 = o1) ∧
    (∀ o2, o2 ≠ o1 → bzz.Parse E u o2 s n = .error bzz.ErrInvalidAddress) := by
  refine ⟨?_, fun o2 hne => Parse_other_overlay E u o1 o2 s n a1 h1 hne⟩
  intro o2 a2 h2
  by_contra hne
  rw [Parse_other_overlay E u o1 o2 s n a1 h1 hne] at h2
  cases h2

/-- Witness of C17: the overlay of key 7 on network 1 is accepted, a shorter
one is not. -/
theorem Parse_accepts_one_overlay_witness :
    (∀ o2 a2, bzz.Parse Fake.collaborators [4, 127, 0, 0, 1] o2 [7, 19, 27] 1 = .ok a2 →
      o2 = (7 : Byte) :: PutUint64 1) ∧
    (∀ o2, o2 ≠ (7 : Byte) :: PutUint64 1 →
      bzz.Parse Fake.collaborators [4, 127, 0, 0, 1] o2 [7, 19, 27] 1 =
        .error bzz.ErrInvalidAddress) :=
  Parse_accepts_one_overlay Fake.collaborators [4, 127, 0, 0, 1] ((7 : Byte) :: PutUint64 1)
    [7, 19, 27] 1 ⟨[4, 127, 0, 0, 1], Fake.NewOverlayAddress 7 1, [7, 19, 27]⟩ (by decide)

/-- C18: `NewAddress` neither checks nor signs the overlay: when the signer
signs `underlay.Bytes() ++ bigEndian64(networkID)`, `NewAddress` succeeds for
every overlay and returns that one signature for all of them; if
`crypto.Recover` returns the key `pk` from it, `Parse` on the fields of the
address fails with `ErrInvalidAddress` whenever the overlay is not the one
derived from `pk` and the network identifier, as for the signer of key 7 with
the overlay `09`. -/
theorem NewAddress_ignores_overlay :
    (∀ (PK MA : Type) (E : Collaborators PK MA) (signer : Signer PK) (underlay : MA)
        (n : Nat) (sig : Bytes),
      signer.Sign (E.maBytes underlay ++ PutUint64 n) = .ok sig →
      ∀ overlay, bzz.NewAddress E signer underlay overlay n =
        .ok { Underlay := underlay, Overlay := overlay, Signature := sig }) ∧
    (∀ (PK MA : Type) (E : Collaborators PK MA) (signer : Signer PK) (underlay : MA)
        (overlay : swarm.Address) (n : Nat) (a : bzz.Address MA) (pk : PK),
      bzz.NewAddress E signer underlay overlay n = .ok a →
      E.Recover a.Signature (E.maBytes underlay ++ PutUint64 n) = .ok pk →
      overlay ≠ E.NewOverlayAddress pk n →
      bzz.Parse E (E.maBytes a.Underlay) a.Overlay.Bytes a.Signature n =
        .error bzz.ErrInvalidAddress) ∧
    (∃ a, bzz.NewAddress Fake.collaborators (Fake.signer 7) [4, 127, 0, 0, 1] ⟨[9]⟩ 1 = .ok a ∧
      (Fake.signer 7).PublicKey = .ok 7 ∧
      bzz.Parse Fake.collaborators (Fake.collaborators.maBytes a.Underlay) a.Overlay.Bytes
        a.Signature 1 = .error bzz.ErrInvalidAddress) := by
  refine ⟨?_, ?_, ⟨[4, 127, 0, 0, 1], ⟨[9]⟩, [7, 19, 27]⟩, by decide, rfl, by decide⟩
  · intro PK MA E signer underlay n sig hs overlay
    rw [NewAddress_eq, hs]
  · intro PK MA E signer underlay overlay n a pk ha hr hne
    rw [NewAddress_eq] at ha
    cases hs : signer.Sign (E.maBytes underlay ++ PutUint64 n) with
    | error e => rw [hs] at ha; cases ha
    | ok sig =>
      rw [hs] at ha
      injection ha with ha
      subst ha
      rw [Parse_of_Recover_ok E _ _ _ _ pk hr, if_neg]
      intro hb
      apply hne
      cases overlay
      cases hd : E.NewOverlayAddress pk n
      rw [hd] at hb
      exact congrArg swarm.Address.mk hb.symm

/-! ## Theorems: `UnmarshalJSON` step by step -/

/-- `UnmarshalJSON` when `json.Unmarshal` fails: the receiver is untouched. -/
theorem UnmarshalJSON_json_error {PK MA : Type} (E : Collaborators PK MA)
    (p : bzz.Receiver MA) (b : Bytes) (e : GoError) (hj : E.jsonUnmarshal b = .error e) :
    bzz.UnmarshalJSON E p b = (p, some e) := by
  unfold bzz.UnmarshalJSON
  simp only [hj]

/-- `UnmarshalJSON` when the overlay is not hex: the receiver is untouched. -/
theorem UnmarshalJSON_overlay_error {PK MA : Type} (E : Collaborators PK MA)
    (p : bzz.Receiver MA) (b : Bytes) (v : WireRecord) (e : GoError)
    (hj : E.jsonUnmarshal b = .ok v) (ho : swarm.ParseHexAddress v.Overlay = .error e) :
    bzz.UnmarshalJSON E p b = (p, some e) := by
  unfold bzz.UnmarshalJSON
  simp only [hj, ho]

/-- `UnmarshalJSON` when the underlay text is malformed: the overlay has
already been stored. -/
theorem UnmarshalJSON_underlay_error {PK MA : Type} (E : Collaborators PK MA)
    (p : bzz.Receiver MA) (b : Bytes) (v : WireRecord) (o : swarm.Address) (e : GoError)
    (hj : E.jsonUnmarshal b = .ok v) (ho : swarm.ParseHexAddress v.Overlay = .ok o)
    (hm : E.NewMultiaddr v.Underlay = .error e) :
    bzz.UnmarshalJSON E p b = ({ p with Overlay := o }, some e) := by
  unfold bzz.UnmarshalJSON
  simp only [hj, ho, hm]

/-- `UnmarshalJSON` once the underlay text is read: all three fields are
stored, and the error is that of the base64 decoder. -/
theorem UnmarshalJSON_signature {PK MA : Type} (E : Collaborators PK MA)
    (p : bzz.Receiver MA) (b : Bytes) (v : WireRecord) (o : swarm.Address) (m : MA)
    (hj : E.jsonUnmarshal b = .ok v) (ho : swarm.ParseHexAddress v.Overlay = .ok o)
    (hm : E.NewMultiaddr v.Underlay = .ok m) :
    bzz.UnmarshalJSON E p b =
      ({ Underlay := some m, Overlay := o, Signature := (base64DecodeString v.Signature).1 },
        (base64DecodeString v.Signature).2) := by
  unfold bzz.UnmarshalJSON
  simp only [hj, ho, hm]
  cases (base64DecodeString v.Signature).2 <;> rfl

/-- `UnmarshalJSON` returns no error exactly when the four decoders succeed. -/
theorem UnmarshalJSON_ok_iff {PK MA : Type} (E : Collaborators PK MA)
    (p : bzz.Receiver MA) (b : Bytes) :
    (bzz.UnmarshalJSON E p b).2 = none ↔
      ∃ v o m sig, E.jsonUnmarshal b = .ok v ∧ swarm.ParseHexAddress v.Overlay = .ok o ∧
        E.NewMultiaddr v.Underlay = .ok m ∧ base64DecodeString v.Signature = (sig, none) := by
  cases hj : E.jsonUnmarshal b with
  | error e => simp [UnmarshalJSON_json_error E p b e hj]
  | ok v =>
    cases ho : swarm.ParseHexAddress v.Overlay with
    | error e => simp [UnmarshalJSON_overlay_error E p b v e hj ho, ho]
    | ok o =>
      cases hm : E.NewMultiaddr v.Underlay with
      | error e => simp [UnmarshalJSON_underlay_error E p b v o e hj ho hm, ho, hm]
      | ok m =>
        rw [UnmarshalJSON_signature E p b v o m hj ho hm]
        constructor
        · intro h
          exact ⟨v, o, m, (base64DecodeString v.Signature).1, rfl, ho, hm, Prod.ext rfl h⟩
        · rintro ⟨v2, o2, m2, sig, hv, -, -, hs⟩
          injection hv with hv
          subst hv
          rw [hs]

/-- C12: `UnmarshalJSON` returns no error exactly when `json.Unmarshal` reads a
record, its overlay is hex, its underlay is a textual multiaddr and its
signature is standard base64; it takes no network identifier and its result is
the same for any key recovery and overlay derivation; the record with overlay
`ab`, underlay `/04` and signature `AAAA` is decoded without error although
`Parse` rejects the decoded underlay, overlay and signature for every network
identifier. -/
theorem UnmarshalJSON_checks_syntax_only :
    (∀ (PK MA : Type) (E : Collaborators PK MA) (p : bzz.Receiver MA) (b : Bytes),
      (bzz.UnmarshalJSON E p b).2 = none ↔
        ∃ v o m sig, E.jsonUnmarshal b = .ok v ∧ swarm.ParseHexAddress v.Overlay = .ok o ∧
          E.NewMultiaddr v.Underlay = .ok m ∧
          base64DecodeString v.Signature = (sig, none)) ∧
    (∀ (PK PK2 MA : Type) (E : Collaborators PK MA) (E2 : Collaborators PK2 MA)
        (p : bzz.Receiver MA) (b : Bytes),
      E.jsonUnmarshal = E2.jsonUnmarshal → E.NewMultiaddr = E2.NewMultiaddr →
      bzz.UnmarshalJSON E p b = bzz.UnmarshalJSON E2 p b) ∧
    (bzz.UnmarshalJSON Fake.collaborators ⟨none, ⟨[]⟩, []⟩
        (str ("\x7b\x22Overlay\x22:\x22ab\x22,\x22Underlay\x22:\x22/04\x22," ++
          "\x22Signature\x22:\x22AAAA\x22\x7d")) =
        ({ Underlay := some [4], Overlay := ⟨[171]⟩, Signature := [0, 0, 0] }, none) ∧
      ∀ n, bzz.Parse Fake.collaborators [4] [171] [0, 0, 0] n =
        .error bzz.ErrInvalidAddress) := by
  refine ⟨fun PK MA E p b => UnmarshalJSON_ok_iff E p b, ?_, by decide, ?_⟩
  · intro PK PK2 MA E E2 p b hj hm
    unfold bzz.UnmarshalJSON
    rw [hj, hm]
  · intro n
    apply Parse_of_Recover_error Fake.collaborators _ _ _ _ (.other "recovery failed")
    show Fake.Recover [0, 0, 0] _ = _
    unfold Fake.Recover
    exact if_neg (fun h => by rcases h.2 with h | h <;> exact absurd h (by decide))

/-- C19: `UnmarshalJSON` is not atomic on error.  When `json.Unmarshal` fails
or the overlay is not hex the receiver is returned as it was; when the underlay
text is malformed the receiver's overlay has already been replaced, and when
the signature is not base64 the overlay, the underlay and the signature have
been replaced, as for the receiver `(01, 02, 03)` with the records
`(ab, bad, "")` and `(ab, /04, Zm9vYg=)`. -/
theorem UnmarshalJSON_not_atomic :
    (∀ (PK MA : Type) (E : Collaborators PK MA) (p : bzz.Receiver MA) (b : Bytes) (e : GoError),
      E.jsonUnmarshal b = .error e → bzz.UnmarshalJSON E p b = (p, some e)) ∧
    (∀ (PK MA : Type) (E : Collaborators PK MA) (p : bzz.Receiver MA) (b : Bytes)
        (v : WireRecord) (e : GoError),
      E.jsonUnmarshal b = .ok v → swarm.ParseHexAddress v.Overlay = .error e →
      bzz.UnmarshalJSON E p b = (p, some e)) ∧
    (∀ (PK MA : Type) (E : Collaborators PK MA) (p : bzz.Receiver MA) (b : Bytes)
        (v : WireRecord) (o : swarm.Address) (e : GoError),
      E.jsonUnmarshal b = .ok v → swarm.ParseHexAddress v.Overlay = .ok o →
      E.NewMultiaddr v.Underlay = .error e →
      bzz.UnmarshalJSON E p b = ({ p with Overlay := o }, some e)) ∧
    (∀ (PK MA : Type) (E : Collaborators PK MA) (p : bzz.Receiver MA) (b : Bytes)
        (v : WireRecord) (o : swarm.Address) (m : MA) (sig : Bytes) (e : GoError),
      E.jsonUnmarshal b = .ok v → swarm.ParseHexAddress v.Overlay = .ok o →
      E.NewMultiaddr v.Underlay = .ok m → base64DecodeString v.Signature = (sig, some e) →
      bzz.UnmarshalJSON E p b =
        ({ Underlay := some m, Overlay := o, Signature := sig }, some e)) ∧
    bzz.UnmarshalJSON Fake.collaborators ⟨some [1], ⟨[2]⟩, [3]⟩
        (str ("\x7b\x22Overlay\x22:\x22ab\x22,\x22Underlay\x22:\x22bad\x22," ++
          "\x22Signature\x22:\x22\x22\x7d")) =
      ({ Underlay := some [1], Overlay := ⟨[171]⟩, Signature := [3] },
        some (.other "must begin with /")) ∧
    bzz.UnmarshalJSON Fake.collaborators ⟨some [1], ⟨[2]⟩, [3]⟩
        (str ("\x7b\x22Overlay\x22:\x22ab\x22,\x22Underlay\x22:\x22/04\x22," ++
          "\x22Signature\x22:\x22Zm9vYg=\x22\x7d")) =
      ({ Underlay := some [4], Overlay := ⟨[171]⟩, Signature := str "foo" },
        some CorruptInputError) := by
  refine ⟨fun PK MA E p b e h => UnmarshalJSON_json_error E p b e h,
    fun PK MA E p b v e hj ho => UnmarshalJSON_overlay_error E p b v e hj ho,
    fun PK MA E p b v o e hj ho hm => UnmarshalJSON_underlay_error E p b v o e hj ho hm,
    ?_, by decide, by decide⟩
  intro PK MA E p b v o m sig e hj ho hm hs
  rw [UnmarshalJSON_signature E p b v o m hj ho hm, hs]

/-! ## Theorems: stream resolution -/

/-- C13: for a request against the registry of a connected peer, a protocol
name that is not registered, a registered protocol with an incompatible
requested version, and a matching protocol and version with a stream name that
is not among the protocol's streams each give an `IncompatibleStreamError`
wrapping its not-supported cause; every error of the resolution is of that
kind; a request whose protocol, version and stream name match gives the
handler and no error; so it is for the requests of
`TestNewStream_errNotSupported` and `TestNewStream`. -/
theorem resolveStream_fails_only_with_IncompatibleStreamError :
    (∀ (H : Type) (registry : List (ProtocolSpec H)) (name version stream : GoString),
      lookup registry name = none →
      resolveStream registry name version stream =
        .error (.IncompatibleStreamError .protocol)) ∧
    (∀ (H : Type) (registry : List (ProtocolSpec H)) (name version stream : GoString)
        (spec : ProtocolSpec H),
      lookup registry name = some spec → isCompatible version spec.Version = false →
      resolveStream registry name version stream =
        .error (.IncompatibleStreamError .version)) ∧
    (∀ (H : Type) (registry : List (ProtocolSpec H)) (name version stream : GoString)
        (spec : ProtocolSpec H),
      lookup registry name = some spec → isCompatible version spec.Version = true →
      (spec.StreamSpecs.find? fun st => decide (st.Name = stream)) = none →
      resolveStream registry name version stream =
        .error (.IncompatibleStreamError .stream)) ∧
    (∀ (H : Type) (registry : List (ProtocolSpec H)) (name version stream : GoString)
        (e : StreamError),
      resolveStream registry name version stream = .error e →
      ∃ cause, e = .IncompatibleStreamError cause) ∧
    (∀ (H : Type) (registry : List (ProtocolSpec H)) (name version stream : GoString)
        (spec : ProtocolSpec H) (st : StreamSpec H),
      lookup registry name = some spec → isCompatible version spec.Version = true →
      (spec.StreamSpecs.find? fun st => decide (st.Name = stream)) = some st →
      resolveStream registry name version stream = .ok st.Handler) ∧
    resolveStream ([] : List (ProtocolSpec Unit)) (str "testing") (str "2.3.4")
      (str "messages") = .error (.IncompatibleStreamError .protocol) ∧
    resolveStream [newTestProtocol ()] (str "testinginvalid") (str "2.3.4")
      (str "messages") = .error (.IncompatibleStreamError .protocol) ∧
    resolveStream [newTestProtocol ()] (str "testing") (str "2.4.0")
      (str "messages") = .error (.IncompatibleStreamError .version) ∧
    resolveStream [newTestProtocol ()] (str "testing") (str "2.3.4")
      (str "messagesinvalid") = .error (.IncompatibleStreamError .stream) ∧
    resolveStream [newTestProtocol ()] (str "testing") (str "2.3.4")
      (str "messages") = .ok () := by
  refine ⟨?_, ?_, ?_, ?_, ?_, by decide, by decide, by decide, by decide, by decide⟩
  · intro H registry name version stream h
    simp only [resolveStream, h]
  · intro H registry name version stream spec h hc
    simp [resolveStream, h, hc]
  · intro H registry name version stream spec h hc hf
    simp only [resolveStream, h, hc, hf, if_true]
  · intro H registry name version stream e he
    unfold resolveStream at he
    cases hl : lookup registry name with
    | none =>
      rw [hl] at he
      injection he with he
      exact ⟨.protocol, he.symm⟩
    | some spec =>
      rw [hl] at he
      by_cases hc : isCompatible version spec.Version = true
      · simp only [hc, if_true] at he
        cases hf : (spec.StreamSpecs.find? fun st => decide (st.Name = stream)) with
        | none =>
          rw [hf] at he
          injection he with he
          exact ⟨.stream, he.symm⟩
        | some st => rw [hf] at he; cases he
      · simp only [hc] at he
        injection he with he
        exact ⟨.version, he.symm⟩
  · intro H registry name version stream spec st h hc hf
    simp only [resolveStream, h, hc, hf, if_true]

/-! ## Theorems: the shape of the wire record -/

set_option maxRecDepth 20000 in
/-- C14, counterexample: for the address of key 7 on network 1 with underlay
`04 7f 00 00 01`, `MarshalJSON` (with `json.Marshal` writing the untagged
struct) returns the object whose keys are `Overlay`, `Underlay` and
`Signature`; no key `overlay`, `underlay` or `signature` occurs in it. -/
theorem MarshalJSON_keys_are_capitalised :
    bzz.Address.MarshalJSON Fake.collaborators
        ⟨[4, 127, 0, 0, 1], Fake.NewOverlayAddress 7 1, [7, 19, 27]⟩ =
      .ok (str ("\x7b\x22Overlay\x22:\x22070000000000000001\x22," ++
        "\x22Underlay\x22:\x22/047f000001\x22,\x22Signature\x22:\x22BxMb\x22\x7d")) ∧
    ¬ List.IsInfix (str "\x22overlay\x22")
      (str ("\x7b\x22Overlay\x22:\x22070000000000000001\x22," ++
        "\x22Underlay\x22:\x22/047f000001\x22,\x22Signature\x22:\x22BxMb\x22\x7d")) ∧
    ¬ List.IsInfix (str "\x22underlay\x22")
      (str ("\x7b\x22Overlay\x22:\x22070000000000000001\x22," ++
        "\x22Underlay\x22:\x22/047f000001\x22,\x22Signature\x22:\x22BxMb\x22\x7d")) ∧
    ¬ List.IsInfix (str "\x22signature\x22")
      (str ("\x7b\x22Overlay\x22:\x22070000000000000001\x22," ++
        "\x22Underlay\x22:\x22/047f000001\x22,\x22Signature\x22:\x22BxMb\x22\x7d")) := by
  refine ⟨by decide, by decide, by decide, by decide⟩

/-- C14, as amended: `MarshalJSON` returns what `json.Marshal` makes of the
struct of exactly three string fields `Overlay`, `Underlay` and `Signature`,
holding the hex text of the overlay, the text of the underlay and the standard
base64 encoding of the signature; with `json.Marshal` writing the untagged
struct, the result is the object with exactly the three keys `Overlay`,
`Underlay` and `Signature`, in that order, and these values. -/
theorem MarshalJSON_is_record_of_three_fields {PK MA : Type} (E : Collaborators PK MA)
    (a : bzz.Address MA) :
    bzz.Address.MarshalJSON E a =
      E.jsonMarshal { Overlay := hexEncodeToString a.Overlay.Bytes,
                      Underlay := E.maString a.Underlay,
                      Signature := base64EncodeToString a.Signature } ∧
    ∀ b : bzz.Address Bytes, bzz.Address.MarshalJSON Fake.collaborators b =
      .ok (str "\x7b\x22Overlay\x22:\x22" ++ hexEncodeToString b.Overlay.Bytes ++
        str "\x22,\x22Underlay\x22:\x22" ++ Fake.collaborators.maString b.Underlay ++
        str "\x22,\x22Signature\x22:\x22" ++ base64EncodeToString b.Signature ++
        str "\x22\x7d") :=
  ⟨rfl, fun _ => rfl⟩

/-! ## Theorems: two calls of `NewAddress` -/

/-- C9, counterexample: the signer of key 7 that alternates its header byte
signs in both of two calls `NewAddress` with the same underlay, overlay and
network identifier; the two addresses hold the signatures `07 13 1b` and
`07 13 1f` and are not `Equal`. -/
theorem NewAddress_twice_not_Equal :
    ∃ a1 a2,
      NewAddressTwice Fake.collaborators (Fake.alternatingSigner 7) 0 [4, 127, 0, 0, 1]
        (Fake.NewOverlayAddress 7 1) 1 = (.ok a1, .ok a2) ∧
      a1.Signature = [7, 19, 27] ∧ a2.Signature = [7, 19, 31] ∧
      bzz.Address.Equal Fake.collaborators a1 a2 = false :=
  ⟨⟨[4, 127, 0, 0, 1], Fake.NewOverlayAddress 7 1, [7, 19, 27]⟩,
    ⟨[4, 127, 0, 0, 1], Fake.NewOverlayAddress 7 1, [7, 19, 31]⟩, by decide, rfl, rfl,
    by decide⟩

/-- C9, as amended: two calls of `NewAddress` with the same signer, underlay,
overlay and network identifier that both succeed return addresses with the
given overlay and the given underlay, each holding the signature that the
signer returned in that call for `underlay.Bytes() ++ PutUint64(networkID)`;
the underlay being `Equal` to itself, the two addresses are `Equal` exactly
when these two signatures are the same bytes, in particular when the signer
returns the same result in both calls. -/
theorem NewAddress_twice_Equal_iff_same_signature {PK MA σ : Type}
    (E : Collaborators PK MA) (S : StatefulSigner PK σ) (st : σ) (underlay : MA)
    (overlay : swarm.Address) (networkID : Nat) (a1 a2 : bzz.Address MA)
    (hrefl : E.maEqual underlay underlay = true)
    (h : NewAddressTwice E S st underlay overlay networkID = (.ok a1, .ok a2)) :
    a1.Overlay = overlay ∧ a2.Overlay = overlay ∧
    a1.Underlay = underlay ∧ a2.Underlay = underlay ∧
    (S.Sign st (E.maBytes underlay ++ PutUint64 networkID)).1 = .ok a1.Signature ∧
    (S.Sign (S.Sign st (E.maBytes underlay ++ PutUint64 networkID)).2
      (E.maBytes underlay ++ PutUint64 networkID)).1 = .ok a2.Signature ∧
    (bzz.Address.Equal E a1 a2 = true ↔ a1.Signature = a2.Signature) ∧
    ((S.Sign st (E.maBytes underlay ++ PutUint64 networkID)).1 =
        (S.Sign (S.Sign st (E.maBytes underlay ++ PutUint64 networkID)).2
          (E.maBytes underlay ++ PutUint64 networkID)).1 →
      bzz.Address.Equal E a1 a2 = true) := by
  unfold NewAddressTwice at h
  simp only [Prod.mk.injEq] at h
  obtain ⟨h1, h2⟩ := h
  obtain ⟨hu1, ho1, hs1⟩ :=
    (NewAddress_ok_fields E (S.inState st) underlay overlay networkID) a1 h1
  obtain ⟨hu2, ho2, hs2⟩ :=
    (NewAddress_ok_fields E
      (S.inState (S.Sign st (E.maBytes underlay ++ PutUint64 networkID)).2)
      underlay overlay networkID) a2 h2
  have hiff : bzz.Address.Equal E a1 a2 = true ↔ a1.Signature = a2.Signature := by
    rw [Equal_eq_true_iff, ho1, ho2, hu1, hu2]
    exact ⟨fun hh => hh.2.2, fun hh => ⟨rfl, hrefl, hh⟩⟩
  refine ⟨ho1, ho2, hu1, hu2, hs1, hs2, hiff, ?_⟩
  intro hsame
  apply hiff.mpr
  have hs1' : (S.Sign st (E.maBytes underlay ++ PutUint64 networkID)).1 = .ok a1.Signature :=
    hs1
  have hs2' : (S.Sign (S.Sign st (E.maBytes underlay ++ PutUint64 networkID)).2
      (E.maBytes underlay ++ PutUint64 networkID)).1 = .ok a2.Signature := hs2
  rw [hsame, hs2'] at hs1'
  injection hs1' with hs1'
  exact hs1'.symm

/-- Witness of the amended C9: the alternating signer of key 7, first call in
state 0. -/
theorem NewAddress_twice_Equal_iff_same_signature_witness :
    (bzz.Address.Equal Fake.collaborators
        ⟨[4, 127, 0, 0, 1], Fake.NewOverlayAddress 7 1, [7, 19, 27]⟩
        ⟨[4, 127, 0, 0, 1], Fake.NewOverlayAddress 7 1, [7, 19, 31]⟩ = true ↔
      ([7, 19, 27] : Bytes) = [7, 19, 31]) :=
  (NewAddress_twice_Equal_iff_same_signature Fake.collaborators (Fake.alternatingSigner 7) 0
    [4, 127, 0, 0, 1] (Fake.NewOverlayAddress 7 1) 1
    ⟨[4, 127, 0, 0, 1], Fake.NewOverlayAddress 7 1, [7, 19, 27]⟩
    ⟨[4, 127, 0, 0, 1], Fake.NewOverlayAddress 7 1, [7, 19, 31]⟩
    (by decide) (by decide)).2.2.2.2.2.2.1

/-! ## Theorems: replay on another network -/

/-- Overlay addresses with the same bytes are the same address. -/
theorem swarm_Address_eq_of_Bytes (a b : swarm.Address) (h : a.Bytes = b.Bytes) : a = b := by
  cases a
  cases b
  exact congrArg swarm.Address.mk h

/-- In `Sound`, a signature recovers a key from one message only. -/
theorem Sound_Recover_one_message (sig m m2 : Bytes) (pk : Byte)
    (h1 : Sound.collaborators.Recover sig m = .ok pk)
    (h2 : Sound.collaborators.Recover sig m2 = .ok pk) : m = m2 := by
  cases sig with
  | nil => cases h1
  | cons k signed =>
    change (if signed = m then Except.ok k else _) = _ at h1
    change (if signed = m2 then Except.ok k else _) = _ at h2
    by_cases e1 : signed = m
    · by_cases e2 : signed = m2
      · exact e1.symm.trans e2
      · rw [if_neg e2] at h2; cases h2
    · rw [if_neg e1] at h1; cases h1

/-- In `Sound`, an overlay is derived from one key only. -/
theorem Sound_overlay_one_key (pk pk2 : Byte) (m m2 : Nat)
    (h : Sound.collaborators.NewOverlayAddress pk m =
      Sound.collaborators.NewOverlayAddress pk2 m2) : pk = pk2 := by
  change Fake.NewOverlayAddress pk m = Fake.NewOverlayAddress pk2 m2 at h
  unfold Fake.NewOverlayAddress at h
  injection h with h
  exact (List.cons.inj h).1

/-- In `Sound`, an overlay is derived on one 64-bit network identifier only. -/
theorem Sound_overlay_one_network (pk pk2 : Byte) (m m2 : Nat) (hm : m < 2 ^ 64)
    (hm2 : m2 < 2 ^ 64)
    (h : Sound.collaborators.NewOverlayAddress pk m =
      Sound.collaborators.NewOverlayAddress pk2 m2) : m = m2 := by
  change Fake.NewOverlayAddress pk m = Fake.NewOverlayAddress pk2 m2 at h
  unfold Fake.NewOverlayAddress at h
  injection h with h
  exact PutUint64_injective m m2 hm hm2 (List.cons.inj h).2

/-- C15: for distinct 64-bit network identifiers `n` and `n2`, inputs that
`Parse` accepts for `n` are rejected with `ErrInvalidAddress` for `n2`, by
either of the two ways in which the crypto module scopes an address to one
network: when overlay derivation is scoped (no overlay is derived on two
network identifiers), and also when signatures are scoped (a signature
recovers a key from one message only, and an overlay is derived from one key
only), the message of `n2` being another byte string than the message of
`n`. -/
theorem Parse_rejects_replay_on_other_network {PK MA : Type} (E : Collaborators PK MA)
    (u o s : Bytes) (n n2 : Nat) (a : bzz.Address MA)
    (hn : n < 2 ^ 64) (hn2 : n2 < 2 ^ 64) (hne : n ≠ n2)
    (h : bzz.Parse E u o s n = .ok a) :
    ((∀ pk pk2 m m2, m < 2 ^ 64 → m2 < 2 ^ 64 →
        E.NewOverlayAddress pk m = E.NewOverlayAddress pk2 m2 → m = m2) →
      bzz.Parse E u o s n2 = .error bzz.ErrInvalidAddress) ∧
    ((∀ sig m m2 pk, E.Recover sig m = .ok pk → E.Recover sig m2 = .ok pk → m = m2) →
      (∀ pk pk2 m m2, E.NewOverlayAddress pk m = E.NewOverlayAddress pk2 m2 → pk = pk2) →
      bzz.Parse E u o s n2 = .error bzz.ErrInvalidAddress) := by
  obtain ⟨pk, _, hr, hb, -, -⟩ := (Parse_eq_ok_iff E _ _ _ _ a).mp h
  constructor
  · intro hderive
    apply Parse_of_no_matching_key
    intro pk2 _ hb2
    exact hne (hderive pk pk2 n n2 hn hn2 (swarm_Address_eq_of_Bytes _ _ (hb.trans hb2.symm)))
  · intro hsig hkey
    apply Parse_of_no_matching_key
    intro pk2 hr2 hb2
    have hpk : pk = pk2 :=
      hkey pk pk2 n n2 (swarm_Address_eq_of_Bytes _ _ (hb.trans hb2.symm))
    rw [← hpk] at hr2
    have hmsg : u ++ PutUint64 n = u ++ PutUint64 n2 := hsig s _ _ pk hr hr2
    exact hne (PutUint64_injective n n2 hn hn2 (List.append_cancel_left hmsg))

/-- Witness of C15: in `Sound` both scopings hold, and the address that key 7
signed for network 1 is rejected on network 2, by either of them. -/
theorem Parse_rejects_replay_on_other_network_witness :
    bzz.Parse Sound.collaborators [4, 127, 0, 0, 1] ((7 : Byte) :: PutUint64 1)
        ((7 : Byte) :: ([4, 127, 0, 0, 1] ++ PutUint64 1)) 1 =
      .ok ⟨[4, 127, 0, 0, 1], Fake.NewOverlayAddress 7 1,
        (7 : Byte) :: ([4, 127, 0, 0, 1] ++ PutUint64 1)⟩ ∧
    bzz.Parse Sound.collaborators [4, 127, 0, 0, 1] ((7 : Byte) :: PutUint64 1)
        ((7 : Byte) :: ([4, 127, 0, 0, 1] ++ PutUint64 1)) 2 =
      .error bzz.ErrInvalidAddress ∧
    bzz.Parse Sound.collaborators [4, 127, 0, 0, 1] ((7 : Byte) :: PutUint64 1)
        ((7 : Byte) :: ([4, 127, 0, 0, 1] ++ PutUint64 1)) 2 =
      .error bzz.ErrInvalidAddress :=
  have hw := Parse_rejects_replay_on_other_network Sound.collaborators [4, 127, 0, 0, 1]
    ((7 : Byte) :: PutUint64 1) ((7 : Byte) :: ([4, 127, 0, 0, 1] ++ PutUint64 1)) 1 2
    ⟨[4, 127, 0, 0, 1], Fake.NewOverlayAddress 7 1,
      (7 : Byte) :: ([4, 127, 0, 0, 1] ++ PutUint64 1)⟩
    (by decide) (by decide) (by decide) (by decide)
  ⟨by decide, hw.1 Sound_overlay_one_network,
    hw.2 Sound_Recover_one_message Sound_overlay_one_key⟩

end Bee
